import Mathlib

/-!
Verification of the sync2pod synchronization engine
(`src/sync2pod/sync_local_to_pod.py` — "the basic script" — and
`src/sync2pod/sync_local_to_pod_optimized.py` — "the optimized script").

The development shallowly embeds the reconciliation planner, the
filtered local tree walks, the bulk-archive / incremental strategy
choice with its fallback, the retrying single-file uploader, the
content fingerprinter's failure mode, the configuration loader of the
optimized script, and the live-watch per-path state machines of both
scripts, and proves (or refutes) the specified properties about them.
-/

namespace Sync2Pod

/-! ## Paths and exclusion patterns -/

/-- Python `s.startswith(p)`: `p.data` is a character-wise prefix of
`s.data`. -/
def pyStartsWith (s pre : String) : Bool :=
  pre.data.isPrefixOf s.data

/-- The exclusion test used identically at each filtering site of both
scripts: `rel_path == exclude_path or
rel_path.startswith(exclude_path + os.sep) or
rel_path.startswith(exclude_path + '/')` (on POSIX `os.sep` is `'/'`,
so the two prefix tests coincide). -/
def matchesExclude (relPath pat : String) : Bool :=
  relPath == pat || pyStartsWith relPath (pat ++ "/")

/-- A relative path is excluded when it matches some configured
exclusion pattern (the `for exclude_path in exclude_paths` loops). -/
def isExcluded (ex : List String) (relPath : String) : Bool :=
  ex.any (fun p => matchesExclude relPath p)

/-- Join relative-path components with `'/'`, as `os.path.relpath`
renders the path of a file below the scanned root. -/
def renderPath : List String → String
  | [] => ""
  | [c] => c
  | c :: cs => c ++ "/" ++ renderPath cs

/-! ## File entries and local trees -/

/-- A file entry produced by a local tree walk: the relative-path
components below the scanned root, and the MD5 digest as computed by
`calculate_file_md5` (`none` when the file could not be read). -/
structure FileEntry where
  comps : List String
  md5 : Option String
deriving DecidableEq

/-- The slash-separated relative path of an entry (`os.path.relpath`). -/
def FileEntry.relPath (e : FileEntry) : String :=
  renderPath e.comps

mutual
/-- A node of the local directory tree: files carry their
digest-as-computed; directories carry their children. -/
inductive FsTree where
  | file (name : String) (md5 : Option String) : FsTree
  | dir (name : String) (children : FsForest) : FsTree
/-- A list of sibling nodes (the children of one directory, or the
entries directly under the scanned local path). -/
inductive FsForest where
  | nil : FsForest
  | cons (t : FsTree) (ts : FsForest) : FsForest
end

/-- Build a forest from a list of nodes (convenience constructor). -/
def FsForest.ofList : List FsTree → FsForest
  | [] => FsForest.nil
  | t :: ts => FsForest.cons t (FsForest.ofList ts)

/-! ## The filtered walks

Both scripts walk the local tree with `os.walk`, pruning directories
in place (`dirs[:] = ...`) and filtering files.  `walkGen` is that
skeleton, parametrized by the per-file retention test (given the
components of the containing directory and the file name) and the
per-directory descent test; `pre` accumulates the directory components
of the current root relative to the scanned local path. -/

def walkGen (keepFile : List String → String → Bool)
    (keepDir : List String → String → Bool)
    (pre : List String) : FsForest → List FileEntry
  | FsForest.nil => []
  | FsForest.cons (FsTree.file name md5) ts =>
      (if keepFile pre name then [⟨pre ++ [name], md5⟩] else []) ++
        walkGen keepFile keepDir pre ts
  | FsForest.cons (FsTree.dir name cs) ts =>
      (if keepDir pre name then walkGen keepFile keepDir (pre ++ [name]) cs else []) ++
        walkGen keepFile keepDir pre ts

/-- The scan loop of the basic script's `upload_initial_files`
(lines 538-575): dot-named directories are pruned
(`dirs[:] = [d for d in dirs if not d.startswith('.')]`), and each
file is kept unless its relative path matches an exclusion pattern.
There is no per-file dot-name check in this loop. -/
def walkBasic (ex : List String) (f : FsForest) : List FileEntry :=
  walkGen (fun pre name => !isExcluded ex (renderPath (pre ++ [name])))
    (fun _ name => !pyStartsWith name ".") [] f

/-- The scan loop of the optimized script's `upload_initial_files`
(lines 332-370), which is also the loop of `count_files`
(lines 155-181): dot-named directories are pruned, dot-named files are
skipped (`if file.startswith('.'): continue`), and excluded files are
skipped. -/
def walkOpt (ex : List String) (f : FsForest) : List FileEntry :=
  walkGen
    (fun pre name =>
      !pyStartsWith name "." && !isExcluded ex (renderPath (pre ++ [name])))
    (fun _ name => !pyStartsWith name ".") [] f

/-- `count_files` of the optimized script: counts exactly the files its
scan loop retains (same dot-directory pruning, dot-file skipping and
exclusion tests). -/
def count_files (ex : List String) (f : FsForest) : Nat :=
  (walkOpt ex f).length

/-- The archive walk of the basic script's `create_compressed_archive`
(lines 196-243): dot-named directories are pruned, a file is added
unless some component of its path starts with a dot
(`any(part.startswith('.') for part in file_path.split(os.sep))`,
assuming the local root itself has no dot-named components) or its
relative path matches an exclusion pattern. -/
def archiveBasic (ex : List String) (f : FsForest) : List FileEntry :=
  walkGen
    (fun pre name =>
      !((pre ++ [name]).any (fun c => pyStartsWith c ".")) &&
        !isExcluded ex (renderPath (pre ++ [name])))
    (fun _ name => !pyStartsWith name ".") [] f

/-- The archive walk of the optimized script's `compress_dir`
(lines 183-258): dot-named directories are pruned, directories whose
relative path matches an exclusion pattern are pruned
(`dirs_to_remove`), dot-named files are skipped, and excluded files
are skipped. -/
def archiveOpt (ex : List String) (f : FsForest) : List FileEntry :=
  walkGen
    (fun pre name =>
      !pyStartsWith name "." && !isExcluded ex (renderPath (pre ++ [name])))
    (fun pre name =>
      !pyStartsWith name "." && !isExcluded ex (renderPath (pre ++ [name]))) [] f

/-! ## The content fingerprinter -/

/-- `calculate_file_md5`: streams the file and returns its MD5 hex
digest, or `None` when the file cannot be read (the `except` branch —
it logs and returns rather than raising).  The digest function itself
is abstract (`md5hex`); the file's readable content is `some bytes`,
or `none` for a read failure. -/
def calculate_file_md5 (md5hex : List Nat → String) :
    Option (List Nat) → Option String
  | some bytes => some (md5hex bytes)
  | none => none

/-! ## The reconciliation planner -/

/-- Lookup in the remote inventory (the `remote_files_md5` dict,
keyed by relative path). -/
def lookupMd5 : List (String × String) → String → Option String
  | [], _ => none
  | (k, v) :: rest, q => if k == q then some v else lookupMd5 rest q

/-- The per-file decision of `upload_initial_files`:
`need_upload = True`; if the relative path is in the remote inventory
and the local MD5 equals the remote MD5, `need_upload = False`. -/
def needUpload (remote : List (String × String)) (rp : String)
    (md5 : Option String) : Bool :=
  match lookupMd5 remote rp with
  | none => true
  | some r => !(md5 == some r)

/-- The `files_to_upload` list: scanned retained files that need
upload, in scan order. -/
def pendingFiles (remote : List (String × String)) (locals : List FileEntry) :
    List FileEntry :=
  locals.filter (fun e => needUpload remote e.relPath e.md5)

/-- The files counted by `files_skipped`: scanned retained files whose
local digest matches the remote inventory. -/
def skippedFiles (remote : List (String × String)) (locals : List FileEntry) :
    List FileEntry :=
  locals.filter (fun e => !needUpload remote e.relPath e.md5)

/-- The `files_skipped` counter. -/
def skippedCount (remote : List (String × String)) (locals : List FileEntry) :
    Nat :=
  (skippedFiles remote locals).length

/-- A remote inventory whose entries are exactly the given local
entries' relative paths and digests (entries with an unavailable
digest contribute nothing). -/
def localsInventory (locals : List FileEntry) : List (String × String) :=
  locals.filterMap (fun e => e.md5.map (fun d => (e.relPath, d)))

/-- `get_remote_files_md5` of the basic script (lines 289-315): parses
the remote `md5sum` listing into a relative-path-to-digest mapping; a
fetch failure is caught and yields an empty mapping.  It applies no
exclusion filtering. -/
def remoteInventoryBasic (fetch : Option (List (String × String))) :
    List (String × String) :=
  match fetch with
  | none => []
  | some raw => raw

/-- `get_remote_files_md5` of the optimized script (lines 260-300):
like the basic one but entries whose relative path matches an
exclusion pattern are dropped. -/
def remoteInventoryOpt (ex : List String)
    (fetch : Option (List (String × String))) : List (String × String) :=
  match fetch with
  | none => []
  | some raw => raw.filter (fun kv => !isExcluded ex kv.1)

/-! ## The strategy choice and the bulk path

`upload_initial_files` (both scripts) fetches the remote inventory
once, scans the local tree once, computes the pending set and skipped
count, and then: if more than 100 files are pending it attempts the
bulk path — build a compressed archive of the whole filtered local
tree, copy it to the remote staging location, extract it over the
target directory (`tar -xzf`, overwriting existing entries) — and
returns on success; on any failure of the three bulk steps
(`except subprocess.CalledProcessError` / `except Exception`) it falls
through to the incremental path over the already-computed pending set.
With 100 or fewer pending files the incremental path runs directly and
no archive is built.  The three external bulk steps are modelled by a
`BulkOutcome` oracle. -/

/-- Outcomes of the three fallible external bulk steps: local archive
creation, archive copy to the remote staging path, remote
extraction. -/
structure BulkOutcome where
  archiveOk : Bool
  copyOk : Bool
  extractOk : Bool
deriving DecidableEq

/-- The bulk path succeeds only when all three steps do. -/
def bulkAllOk (bo : BulkOutcome) : Bool :=
  bo.archiveOk && bo.copyOk && bo.extractOk

/-- How a reconciliation run ended: early return after a successful
bulk transfer, or execution of the incremental upload path over the
given list of files. -/
inductive RunPhase where
  | bulkCompleted : RunPhase
  | incremental (uploads : List FileEntry) : RunPhase
deriving DecidableEq

/-- Observable outcome of one `upload_initial_files` run:
how many times the remote inventory was fetched, how many times the
local tree was scanned, the entry list of the archive if one was
built, whether an on-extract-overwriting bulk extraction was used, the
final phase, and the skipped-file count. -/
structure RunResult where
  fetchCount : Nat
  scanCount : Nat
  archiveBuilt : Option (List FileEntry)
  overwriteOnExtract : Bool
  phase : RunPhase
  skipped : Nat
deriving DecidableEq

/-- `upload_initial_files` of the basic script (lines 511-762),
starting after the initial remote-directory creation succeeds. -/
def uploadInitialFilesBasicRun (ex : List String) (tree : FsForest)
    (fetch : Option (List (String × String))) (bo : BulkOutcome) : RunResult :=
  let remote := remoteInventoryBasic fetch
  let locals := walkBasic ex tree
  let pending := pendingFiles remote locals
  if pending.length > 100 then
    if bulkAllOk bo then
      ⟨1, 1, if bo.archiveOk then some (archiveBasic ex tree) else none, true,
        RunPhase.bulkCompleted, skippedCount remote locals⟩
    else
      ⟨1, 1, if bo.archiveOk then some (archiveBasic ex tree) else none, true,
        RunPhase.incremental pending, skippedCount remote locals⟩
  else
    ⟨1, 1, none, false, RunPhase.incremental pending, skippedCount remote locals⟩

/-- `upload_initial_files` of the optimized script (lines 302-544),
starting after the initial remote-directory creation succeeds. -/
def uploadInitialFilesOptRun (ex : List String) (tree : FsForest)
    (fetch : Option (List (String × String))) (bo : BulkOutcome) : RunResult :=
  let remote := remoteInventoryOpt ex fetch
  let locals := walkOpt ex tree
  let pending := pendingFiles remote locals
  if pending.length > 100 then
    if bulkAllOk bo then
      ⟨1, 1, if bo.archiveOk then some (archiveOpt ex tree) else none, true,
        RunPhase.bulkCompleted, skippedCount remote locals⟩
    else
      ⟨1, 1, if bo.archiveOk then some (archiveOpt ex tree) else none, true,
        RunPhase.incremental pending, skippedCount remote locals⟩
  else
    ⟨1, 1, none, false, RunPhase.incremental pending, skippedCount remote locals⟩

/-! ## The retrying single-file uploader -/

/-- Per-file outcome reported by the uploader: success after the given
number of prior retries (`attempt`), or failure after the given number
of attempts. -/
inductive UploadReport where
  | success (retries : Nat) : UploadReport
  | failure (attempts : Nat) : UploadReport
deriving DecidableEq

/-- The `for attempt in range(max_retries)` loop body shared by
`upload_single_file` (basic, lines 693-728; optimized, lines 475-513)
and `_upload_file`: attempt `attempt` invokes the external copy
(`ok attempt`); on success the file is reported successful with
`attempt` prior retries and the loop ends; on
`subprocess.CalledProcessError` the loop continues until the fuel
(remaining iterations) runs out, at which point the failure is
reported without raising. -/
def retryFrom (ok : Nat → Bool) : Nat → Nat → UploadReport
  | 0, attempt => UploadReport.failure attempt
  | fuel + 1, attempt =>
      if ok attempt then UploadReport.success attempt
      else retryFrom ok fuel (attempt + 1)

/-- `upload_single_file`: the retry loop with `max_retries = 3`,
starting at attempt 0. -/
def upload_single_file (ok : Nat → Bool) : UploadReport :=
  retryFrom ok 3 0

/-! ## The optimized script's configuration -/

/-- The fields of a stored `.sync_config.json` that the optimized
script's sync path consumes (`compress_threshold` may be absent). -/
structure OptStored where
  compress_threshold : Option Nat
  exclude_paths : List String
  max_workers : Nat
  debug : Bool

/-- The configuration after `load_config` (lines 65-74):
`config.setdefault('compress_threshold', 50)`. -/
structure OptConfig where
  compress_threshold : Nat
  exclude_paths : List String
  max_workers : Nat
  debug : Bool
deriving DecidableEq

/-- `load_config`: reads the stored configuration and defaults
`compress_threshold` to 50. -/
def load_config (s : OptStored) : OptConfig :=
  ⟨s.compress_threshold.getD 50, s.exclude_paths, s.max_workers, s.debug⟩

/-- The `compress_threshold` value written into new configuration
files by `init_config` (lines 862-884, `example_config`). -/
def initConfigCompressThreshold : Nat := 50

/-- The optimized script's non-forced sync (`main`, the
`force_full_sync` = false branch): it calls `upload_initial_files`,
which receives the exclusion list but not `compress_threshold`. -/
def syncNonForced (c : OptConfig) (tree : FsForest)
    (fetch : Option (List (String × String))) (bo : BulkOutcome) : RunResult :=
  uploadInitialFilesOptRun c.exclude_paths tree fetch bo

/-! ## The live-watch state machines

Each handler keeps per-path dictionaries (`processing_files`,
`debounce_timers`, `pending_uploads`); every transition for a path
reads and writes only that path's entries, so the machines are
modelled per path.  Transitions (a watcher callback, a timer callback,
or an upload's `finally` block) are taken as atomic steps. -/

/-- The optimized handler's state for one path:
whether a debounce timer is armed (`debounce_timers`), how many upload
tasks are in flight (`processing_files` holding a not-done future),
and whether the retrigger flag is set (`pending_uploads`). -/
structure OptPathState where
  timer : Bool
  inflight : Nat
  pending : Bool
deriving DecidableEq

/-- Initially a path has no timer, no upload and no flag. -/
def optInit : OptPathState := ⟨false, 0, false⟩

/-- The three kinds of step for one path in the optimized handler:
a create/modify watcher event (`upload_file`), the debounce timer
firing (`_debounced_upload`), and an in-flight upload completing
(`_upload_file`'s `finally` block, success or failure alike). -/
inductive WatchEvent where
  | change : WatchEvent
  | timerFire : WatchEvent
  | complete : WatchEvent
deriving DecidableEq

/-- `upload_file` (optimized, lines 708-737): cancel any armed
debounce timer; if an upload is in flight, set the retrigger flag and
return without arming a timer; otherwise arm a fresh debounce
timer. -/
def optStepChange (s : OptPathState) : OptPathState :=
  if s.inflight > 0 then ⟨false, s.inflight, true⟩
  else ⟨true, s.inflight, s.pending⟩

/-- `_debounced_upload` (optimized, lines 739-762): the timer entry is
removed; if an upload is in flight, set the retrigger flag; otherwise
submit the upload task. -/
def optStepTimerFire (s : OptPathState) : OptPathState :=
  if s.inflight > 0 then ⟨false, s.inflight, true⟩
  else ⟨false, 1, s.pending⟩

/-- `_upload_file`'s `finally` block (optimized, lines 809-825): the
upload leaves `processing_files`; if the retrigger flag is set it is
cleared and a fresh debounce timer is armed, otherwise nothing more
happens. -/
def optStepComplete (s : OptPathState) : OptPathState :=
  if s.pending then ⟨true, s.inflight - 1, false⟩
  else ⟨s.timer, s.inflight - 1, s.pending⟩

/-- One enabled step of the optimized per-path machine: a change event
is always possible; the timer can fire only while armed; a completion
can occur only while an upload is in flight. -/
def optStep (s : OptPathState) : WatchEvent → Option OptPathState
  | WatchEvent.change => some (optStepChange s)
  | WatchEvent.timerFire =>
      if s.timer then some (optStepTimerFire s) else none
  | WatchEvent.complete =>
      if s.inflight > 0 then some (optStepComplete s) else none

/-- Run a sequence of steps from a state; `none` when some step is not
enabled. -/
def optRunFrom (s : OptPathState) : List WatchEvent → Option OptPathState
  | [] => some s
  | e :: es =>
      match optStep s e with
      | none => none
      | some s2 => optRunFrom s2 es

/-- Run a sequence of steps from the initial state. -/
def optRun (evs : List WatchEvent) : Option OptPathState :=
  optRunFrom optInit evs

/-- Status of a submitted upload future in the worker pool: still
queued (not yet picked up by a worker), or running. -/
inductive TaskStatus where
  | queued : TaskStatus
  | running : TaskStatus
deriving DecidableEq

/-- The basic handler's state for one path: the future currently
stored in `processing_files` (the most recently submitted task), and
the number of older upload tasks that are still running after their
dictionary entry was overwritten by a newer submission. -/
structure BasicPathState where
  tracked : Option TaskStatus
  untrackedRunning : Nat
deriving DecidableEq

/-- Initially a path has no submitted task. -/
def basicInit : BasicPathState := ⟨none, 0⟩

/-- Number of uploads of this path executing right now. -/
def BasicPathState.runningUploads (s : BasicPathState) : Nat :=
  s.untrackedRunning +
    (match s.tracked with
     | some TaskStatus.running => 1
     | _ => 0)

/-- The steps for one path in the basic handler: a create/modify
watcher event (`upload_file`), the pool starting the tracked queued
task, the tracked running task finishing, and an untracked (replaced)
running task finishing. -/
inductive BasicEvent where
  | change : BasicEvent
  | start : BasicEvent
  | completeTracked : BasicEvent
  | completeUntracked : BasicEvent
deriving DecidableEq

/-- `upload_file` (basic, lines 427-454): if a not-done future is
tracked, call `old_future.cancel()` — which discards the task when it
is still queued but has no effect on a task that already runs — and
then submit a new task unconditionally, overwriting the tracked
future.  A replaced running task keeps running untracked. -/
def basicStep (s : BasicPathState) : BasicEvent → Option BasicPathState
  | BasicEvent.change =>
      some
        (match s.tracked with
         | some TaskStatus.queued => ⟨some TaskStatus.queued, s.untrackedRunning⟩
         | some TaskStatus.running =>
             ⟨some TaskStatus.queued, s.untrackedRunning + 1⟩
         | none => ⟨some TaskStatus.queued, s.untrackedRunning⟩)
  | BasicEvent.start =>
      match s.tracked with
      | some TaskStatus.queued => some ⟨some TaskStatus.running, s.untrackedRunning⟩
      | _ => none
  | BasicEvent.completeTracked =>
      match s.tracked with
      | some TaskStatus.running => some ⟨none, s.untrackedRunning⟩
      | _ => none
  | BasicEvent.completeUntracked =>
      if s.untrackedRunning > 0 then some ⟨s.tracked, s.untrackedRunning - 1⟩
      else none

/-- Run a sequence of steps of the basic machine from a state. -/
def basicRunFrom (s : BasicPathState) : List BasicEvent → Option BasicPathState
  | [] => some s
  | e :: es =>
      match basicStep s e with
      | none => none
      | some s2 => basicRunFrom s2 es

/-- Run a sequence of steps of the basic machine from the initial
state. -/
def basicRun (evs : List BasicEvent) : Option BasicPathState :=
  basicRunFrom basicInit evs

/-! ## Walk lemmas -/

/-- Every entry a walk retains was admitted by the per-file test of its
own containing directory. -/
theorem walkGen_mem_keep (kf kd : List String → String → Bool) :
    ∀ (pre : List String) (f : FsForest) (e : FileEntry), e ∈ walkGen kf kd pre f →
      ∃ p n, e.comps = p ++ [n] ∧ kf p n = true := by
  intro pre f
  induction pre, f using walkGen.induct kf kd with
  | case1 pre => intro e he; simp [walkGen] at he
  | case2 pre name md5 ts ih =>
      intro e he
      simp only [walkGen] at he
      rcases List.mem_append.mp he with h | h
      · by_cases hk : kf pre name
        · simp only [if_pos hk, List.mem_singleton] at h
          exact ⟨pre, name, by simp [h], hk⟩
        · simp [hk] at h
      · exact ih e h
  | case3 pre name cs ts ih1 ih2 =>
      intro e he
      simp only [walkGen] at he
      rcases List.mem_append.mp he with h | h
      · by_cases hk : kd pre name
        · simp only [if_pos hk] at h
          exact ih1 e h
        · simp [hk] at h
      · exact ih2 e h

/-- The chain of directory components below `pre` was admitted by the
per-directory test, each relative to its own parent. -/
def DirsOk (kd : List String → String → Bool) : List String → List String → Prop
  | _, [] => True
  | pre, d :: ds => kd pre d = true ∧ DirsOk kd (pre ++ [d]) ds

/-- Every entry a walk retains decomposes as the walked prefix, a chain
of admitted directory components, and an admitted file name. -/
theorem walkGen_mem_split (kf kd : List String → String → Bool) :
    ∀ (pre : List String) (f : FsForest) (e : FileEntry), e ∈ walkGen kf kd pre f →
      ∃ ds n, e.comps = pre ++ ds ++ [n] ∧ DirsOk kd pre ds ∧
        kf (pre ++ ds) n = true := by
  intro pre f
  induction pre, f using walkGen.induct kf kd with
  | case1 pre => intro e he; simp [walkGen] at he
  | case2 pre name md5 ts ih =>
      intro e he
      simp only [walkGen] at he
      rcases List.mem_append.mp he with h | h
      · by_cases hk : kf pre name
        · simp only [if_pos hk, List.mem_singleton] at h
          exact ⟨[], name, by simp [h], trivial, by simpa using hk⟩
        · simp [hk] at h
      · exact ih e h
  | case3 pre name cs ts ih1 ih2 =>
      intro e he
      simp only [walkGen] at he
      rcases List.mem_append.mp he with h | h
      · by_cases hk : kd pre name
        · simp only [if_pos hk] at h
          obtain ⟨ds, n, hc, hok, hkf⟩ := ih1 e h
          refine ⟨name :: ds, n, ?_, ⟨hk, hok⟩, by simpa using hkf⟩
          simp only [hc]
          simp
        · simp [hk] at h
      · exact ih2 e h

/-- A pointwise consequence of the per-directory test holds of every
component of an admitted directory chain. -/
theorem DirsOk_forall (kd : List String → String → Bool) (q : String → Bool)
    (hq : ∀ p d, kd p d = true → q d = true) :
    ∀ (ds pre : List String), DirsOk kd pre ds → ∀ d ∈ ds, q d = true := by
  intro ds
  induction ds with
  | nil => intro pre _ d hd; simp at hd
  | cons d0 ds ih =>
      intro pre hok d hd
      rcases hok with ⟨h0, hrest⟩
      rcases List.mem_cons.mp hd with rfl | hd
      · exact hq pre d h0
      · exact ih (pre ++ [d0]) hrest d hd

/-- Entries retained by a walk whose per-file test implies
non-exclusion have a non-excluded relative path. -/
theorem walkGen_not_excluded (ex : List String)
    (kf kd : List String → String → Bool)
    (hkf : ∀ p n, kf p n = true → isExcluded ex (renderPath (p ++ [n])) = false)
    (f : FsForest) (e : FileEntry) (he : e ∈ walkGen kf kd [] f) :
    isExcluded ex e.relPath = false := by
  obtain ⟨p, n, hc, hk⟩ := walkGen_mem_keep kf kd [] f e he
  have := hkf p n hk
  rw [FileEntry.relPath, hc]
  exact this

/-- No retained entry of the basic reconciliation scan is excluded. -/
theorem walkBasic_not_excluded (ex : List String) (f : FsForest) (e : FileEntry)
    (he : e ∈ walkBasic ex f) : isExcluded ex e.relPath = false := by
  refine walkGen_not_excluded ex _ _ ?_ f e he
  intro p n hk
  simpa using hk

/-- No retained entry of the optimized reconciliation scan is
excluded. -/
theorem walkOpt_not_excluded (ex : List String) (f : FsForest) (e : FileEntry)
    (he : e ∈ walkOpt ex f) : isExcluded ex e.relPath = false := by
  refine walkGen_not_excluded ex _ _ ?_ f e he
  intro p n hk
  rw [Bool.and_eq_true] at hk
  simpa using hk.2

/-- No entry of the basic script's archive is excluded. -/
theorem archiveBasic_not_excluded (ex : List String) (f : FsForest) (e : FileEntry)
    (he : e ∈ archiveBasic ex f) : isExcluded ex e.relPath = false := by
  refine walkGen_not_excluded ex _ _ ?_ f e he
  intro p n hk
  rw [Bool.and_eq_true] at hk
  simpa using hk.2

/-- No entry of the optimized script's archive is excluded. -/
theorem archiveOpt_not_excluded (ex : List String) (f : FsForest) (e : FileEntry)
    (he : e ∈ archiveOpt ex f) : isExcluded ex e.relPath = false := by
  refine walkGen_not_excluded ex _ _ ?_ f e he
  intro p n hk
  rw [Bool.and_eq_true] at hk
  simpa using hk.2

/-! ## Reconciliation lemmas -/

/-- In the matching remote inventory, each local entry's path maps to
its own digest (paths are distinct in a walk of a real tree, and all
digests were computed). -/
theorem localsInventory_lookup (locals : List FileEntry)
    (hnd : (locals.map FileEntry.relPath).Nodup)
    (hsome : ∀ e ∈ locals, e.md5.isSome = true) :
    ∀ e ∈ locals, lookupMd5 (localsInventory locals) e.relPath = e.md5 := by
  induction locals with
  | nil => intro e he; simp at he
  | cons e0 rest ih =>
      obtain ⟨d0, hd0⟩ := Option.isSome_iff_exists.mp (hsome e0 (by simp))
      have hinv : localsInventory (e0 :: rest) =
          (e0.relPath, d0) :: localsInventory rest := by
        simp [localsInventory, hd0]
      intro e he
      rcases List.mem_cons.mp he with rfl | he
      · simp [hinv, lookupMd5, hd0]
      · have hne : e0.relPath ≠ e.relPath := by
          intro hcontra
          have : e0.relPath ∈ rest.map FileEntry.relPath := by
            exact hcontra ▸ List.mem_map_of_mem FileEntry.relPath he
          exact (List.nodup_cons.mp (by simpa using hnd)).1 this
        rw [hinv, lookupMd5, if_neg (by simpa using hne)]
        exact ih (by simpa using (List.nodup_cons.mp (by simpa using hnd)).2)
          (fun x hx => hsome x (List.mem_cons_of_mem e0 hx)) e he

/-- Against the matching remote inventory, no local entry needs
upload. -/
theorem needUpload_localsInventory (locals : List FileEntry)
    (hnd : (locals.map FileEntry.relPath).Nodup)
    (hsome : ∀ e ∈ locals, e.md5.isSome = true) :
    ∀ e ∈ locals, needUpload (localsInventory locals) e.relPath e.md5 = false := by
  intro e he
  obtain ⟨d, hd⟩ := Option.isSome_iff_exists.mp (hsome e he)
  have := localsInventory_lookup locals hnd hsome e he
  rw [needUpload, this, hd]
  simp

/-- Reconciliation against the matching remote inventory leaves
nothing pending. -/
theorem pendingFiles_localsInventory (locals : List FileEntry)
    (hnd : (locals.map FileEntry.relPath).Nodup)
    (hsome : ∀ e ∈ locals, e.md5.isSome = true) :
    pendingFiles (localsInventory locals) locals = [] := by
  refine List.filter_eq_nil_iff.mpr ?_
  intro e he
  simp [needUpload_localsInventory locals hnd hsome e he]

/-- Reconciliation against the matching remote inventory skips every
scanned retained file. -/
theorem skippedFiles_localsInventory (locals : List FileEntry)
    (hnd : (locals.map FileEntry.relPath).Nodup)
    (hsome : ∀ e ∈ locals, e.md5.isSome = true) :
    skippedFiles (localsInventory locals) locals = locals := by
  refine List.filter_eq_self.mpr ?_
  intro e he
  simp [needUpload_localsInventory locals hnd hsome e he]

/-- The optimized inventory filter keeps every entry of an inventory
whose paths are the (non-excluded) paths of scanned entries. -/
theorem remoteInventoryOpt_localsInventory (ex : List String)
    (locals : List FileEntry)
    (hex : ∀ e ∈ locals, isExcluded ex e.relPath = false) :
    remoteInventoryOpt ex (some (localsInventory locals)) =
      localsInventory locals := by
  refine List.filter_eq_self.mpr ?_
  intro kv hkv
  obtain ⟨e, he, hmap⟩ := List.mem_filterMap.mp hkv
  obtain ⟨d, _, hkv2⟩ := Option.map_eq_some'.mp hmap
  have : kv.1 = e.relPath := by rw [← hkv2]
  simp [this, hex e he]

/-- Membership in the pending set is exactly "absent remotely, or
present with a different digest". -/
theorem mem_pendingFiles_iff (remote : List (String × String))
    (locals : List FileEntry) (e : FileEntry) (he : e ∈ locals) :
    e ∈ pendingFiles remote locals ↔
      lookupMd5 remote e.relPath = none ∨
        ∃ r, lookupMd5 remote e.relPath = some r ∧ e.md5 ≠ some r := by
  rw [pendingFiles, List.mem_filter]
  cases hlk : lookupMd5 remote e.relPath with
  | none => simp [he, needUpload, hlk]
  | some r =>
      simp only [he, true_and, needUpload, hlk]
      constructor
      · intro hb
        exact Or.inr ⟨r, rfl, by simpa using hb⟩
      · rintro (h | ⟨r2, hr2, hne⟩)
        · exact absurd h (by simp)
        · have : r2 = r := by injection hr2.symm
          subst this
          simpa using hne

/-! ## Claim C1: reconciliation convergence -/

/-- C1: for every local tree, running the initial reconciliation
against a remote inventory whose entries equal the scanned retained
files' relative paths and digests produces an empty upload set — no
file is transferred and the bulk path is not taken — and a skipped
count equal to the number of scanned retained files; moreover a local
entry is pending exactly when its relative path is absent from the
remote inventory or present with a different digest.  This holds for
both scripts (each against its own scan). -/
theorem reconcile_convergence_C1 (ex : List String) (tree : FsForest)
    (bo : BulkOutcome)
    (hndO : ((walkOpt ex tree).map FileEntry.relPath).Nodup)
    (hsomeO : ∀ e ∈ walkOpt ex tree, e.md5.isSome = true)
    (hndB : ((walkBasic ex tree).map FileEntry.relPath).Nodup)
    (hsomeB : ∀ e ∈ walkBasic ex tree, e.md5.isSome = true) :
    pendingFiles (localsInventory (walkOpt ex tree)) (walkOpt ex tree) = [] ∧
    skippedCount (localsInventory (walkOpt ex tree)) (walkOpt ex tree) =
      (walkOpt ex tree).length ∧
    uploadInitialFilesOptRun ex tree (some (localsInventory (walkOpt ex tree))) bo =
      ⟨1, 1, none, false, RunPhase.incremental [], (walkOpt ex tree).length⟩ ∧
    uploadInitialFilesBasicRun ex tree
        (some (localsInventory (walkBasic ex tree))) bo =
      ⟨1, 1, none, false, RunPhase.incremental [], (walkBasic ex tree).length⟩ ∧
    (∀ (remote : List (String × String)) (locals : List FileEntry)
        (e : FileEntry), e ∈ locals →
      (e ∈ pendingFiles remote locals ↔
        lookupMd5 remote e.relPath = none ∨
          ∃ r, lookupMd5 remote e.relPath = some r ∧ e.md5 ≠ some r)) := by
  have hexO : ∀ e ∈ walkOpt ex tree, isExcluded ex e.relPath = false :=
    fun e he => walkOpt_not_excluded ex tree e he
  have hfix := remoteInventoryOpt_localsInventory ex (walkOpt ex tree) hexO
  have hpO := pendingFiles_localsInventory (walkOpt ex tree) hndO hsomeO
  have hsO := skippedFiles_localsInventory (walkOpt ex tree) hndO hsomeO
  have hpB := pendingFiles_localsInventory (walkBasic ex tree) hndB hsomeB
  have hsB := skippedFiles_localsInventory (walkBasic ex tree) hndB hsomeB
  refine ⟨hpO, ?_, ?_, ?_, ?_⟩
  · rw [skippedCount, hsO]
  · simp [uploadInitialFilesOptRun, hfix, hpO, skippedCount, hsO]
  · simp [uploadInitialFilesBasicRun, remoteInventoryBasic, hpB, skippedCount, hsB]
  · intro remote locals e he
    exact mem_pendingFiles_iff remote locals e he

/-- A sample local tree with two retained files, used to instantiate
the convergence theorem. -/
def sampleTreeC1 : FsForest :=
  FsForest.ofList
    [FsTree.file "a" (some "d1"),
     FsTree.dir "sub" (FsForest.ofList [FsTree.file "b" (some "d2")])]

theorem reconcile_convergence_C1_witness :
    pendingFiles (localsInventory (walkOpt [] sampleTreeC1))
        (walkOpt [] sampleTreeC1) = [] ∧
    uploadInitialFilesOptRun [] sampleTreeC1
        (some (localsInventory (walkOpt [] sampleTreeC1))) ⟨true, true, true⟩ =
      ⟨1, 1, none, false, RunPhase.incremental [],
        (walkOpt [] sampleTreeC1).length⟩ := by
  have h := reconcile_convergence_C1 [] sampleTreeC1 ⟨true, true, true⟩
    (by decide) (by decide) (by decide) (by decide)
  exact ⟨h.1, h.2.2.1⟩

/-! ## Claim C4: strategy threshold -/

/-- C4: in both scripts, when more than 100 files are pending the bulk
archive path is selected — the archive that gets built covers the
entire filtered local tree (it is a function of the tree, not of the
pending subset) and extraction overwrites; with 100 or fewer pending
files the incremental path restricted to the pending set runs and no
archive is built. -/
theorem strategy_threshold_C4 (ex : List String) (tree : FsForest)
    (fetch : Option (List (String × String))) (bo : BulkOutcome) :
    ((uploadInitialFilesOptRun ex tree fetch bo).archiveBuilt =
      if (pendingFiles (remoteInventoryOpt ex fetch) (walkOpt ex tree)).length > 100
      then (if bo.archiveOk then some (archiveOpt ex tree) else none)
      else none) ∧
    ((uploadInitialFilesOptRun ex tree fetch bo).phase =
      if (pendingFiles (remoteInventoryOpt ex fetch) (walkOpt ex tree)).length > 100
      then (if bulkAllOk bo then RunPhase.bulkCompleted
            else RunPhase.incremental
              (pendingFiles (remoteInventoryOpt ex fetch) (walkOpt ex tree)))
      else RunPhase.incremental
        (pendingFiles (remoteInventoryOpt ex fetch) (walkOpt ex tree))) ∧
    ((uploadInitialFilesOptRun ex tree fetch bo).overwriteOnExtract =
      ((pendingFiles (remoteInventoryOpt ex fetch) (walkOpt ex tree)).length > 100 :
        Bool)) ∧
    ((uploadInitialFilesBasicRun ex tree fetch bo).archiveBuilt =
      if (pendingFiles (remoteInventoryBasic fetch) (walkBasic ex tree)).length > 100
      then (if bo.archiveOk then some (archiveBasic ex tree) else none)
      else none) ∧
    ((uploadInitialFilesBasicRun ex tree fetch bo).phase =
      if (pendingFiles (remoteInventoryBasic fetch) (walkBasic ex tree)).length > 100
      then (if bulkAllOk bo then RunPhase.bulkCompleted
            else RunPhase.incremental
              (pendingFiles (remoteInventoryBasic fetch) (walkBasic ex tree)))
      else RunPhase.incremental
        (pendingFiles (remoteInventoryBasic fetch) (walkBasic ex tree))) ∧
    ((uploadInitialFilesBasicRun ex tree fetch bo).overwriteOnExtract =
      ((pendingFiles (remoteInventoryBasic fetch) (walkBasic ex tree)).length > 100 :
        Bool)) := by
  unfold uploadInitialFilesOptRun uploadInitialFilesBasicRun
  by_cases hO :
      (pendingFiles (remoteInventoryOpt ex fetch) (walkOpt ex tree)).length > 100 <;>
  by_cases hB :
      (pendingFiles (remoteInventoryBasic fetch) (walkBasic ex tree)).length > 100 <;>
  by_cases hb : bulkAllOk bo = true <;>
  simp [hO, hB, hb]

/-! ## Claim C5: bulk fallback -/

/-- C5: in both scripts, when the bulk path was selected and any of
its three steps fails, the run does not abort: it proceeds to the
incremental upload of exactly the pending set computed before the bulk
attempt, with the remote inventory still fetched once and the local
tree still scanned once (nothing is recomputed). -/
theorem bulk_fallback_C5 (ex : List String) (tree : FsForest)
    (fetch : Option (List (String × String))) (bo : BulkOutcome)
    (hfail : bulkAllOk bo = false)
    (hO : (pendingFiles (remoteInventoryOpt ex fetch) (walkOpt ex tree)).length > 100)
    (hB : (pendingFiles (remoteInventoryBasic fetch) (walkBasic ex tree)).length > 100) :
    uploadInitialFilesOptRun ex tree fetch bo =
      ⟨1, 1, if bo.archiveOk then some (archiveOpt ex tree) else none, true,
        RunPhase.incremental
          (pendingFiles (remoteInventoryOpt ex fetch) (walkOpt ex tree)),
        skippedCount (remoteInventoryOpt ex fetch) (walkOpt ex tree)⟩ ∧
    uploadInitialFilesBasicRun ex tree fetch bo =
      ⟨1, 1, if bo.archiveOk then some (archiveBasic ex tree) else none, true,
        RunPhase.incremental
          (pendingFiles (remoteInventoryBasic fetch) (walkBasic ex tree)),
        skippedCount (remoteInventoryBasic fetch) (walkBasic ex tree)⟩ := by
  unfold uploadInitialFilesOptRun uploadInitialFilesBasicRun
  simp [hO, hB, hfail]

/-- A local tree with 101 retained files, enough to cross the bulk
threshold against an empty remote inventory. -/
def bigTreeC5 : FsForest :=
  FsForest.ofList
    ((List.range 101).map (fun i => FsTree.file ("f" ++ toString i) (some "d")))

theorem bulk_fallback_C5_witness :
    bulkAllOk ⟨true, true, false⟩ = false ∧
    (pendingFiles (remoteInventoryOpt [] none) (walkOpt [] bigTreeC5)).length > 100 ∧
    (uploadInitialFilesOptRun [] bigTreeC5 none ⟨true, true, false⟩).phase =
      RunPhase.incremental
        (pendingFiles (remoteInventoryOpt [] none) (walkOpt [] bigTreeC5)) ∧
    (uploadInitialFilesOptRun [] bigTreeC5 none ⟨true, true, false⟩).fetchCount = 1 ∧
    (uploadInitialFilesOptRun [] bigTreeC5 none ⟨true, true, false⟩).scanCount = 1 := by
  have h := bulk_fallback_C5 [] bigTreeC5 none ⟨true, true, false⟩
    (by decide) (by decide) (by decide)
  refine ⟨by decide, by decide, ?_, ?_, ?_⟩ <;> rw [h.1]

/-! ## Claim C6: exclusion symmetry -/

/-- The optimized inventory filter never yields an entry at an
excluded path. -/
theorem lookupMd5_remoteInventoryOpt_excluded (ex : List String) (q : String)
    (hq : isExcluded ex q = true) (raw : List (String × String)) :
    lookupMd5 (remoteInventoryOpt ex (some raw)) q = none := by
  induction raw with
  | nil => rfl
  | cons kv raw ih =>
      by_cases hk : isExcluded ex kv.1
      · simpa [remoteInventoryOpt, hk] using ih
      · have hne : kv.1 ≠ q := by
          intro hcontra
          rw [hcontra, hq] at hk
          exact hk rfl
        simpa [remoteInventoryOpt, hk, lookupMd5, beq_eq_false_iff_ne.mpr hne]
          using ih

/-- An inventory entry at a path different from the queried one does
not change the per-file upload decision. -/
theorem needUpload_cons_of_ne (q rp : String) (hne : q ≠ rp) (d : String)
    (raw : List (String × String)) (md5 : Option String) :
    needUpload ((q, d) :: raw) rp md5 = needUpload raw rp md5 := by
  simp [needUpload, lookupMd5, beq_eq_false_iff_ne.mpr hne]

/-- C6: for every exclusion pattern `P` of the configured list and
every entry whose relative path equals `P` or descends from it, the
entry appears in neither script's scan, in neither script's archive,
is dropped by the optimized script's inventory filter, and — in the
basic script, whose inventory fetch does not filter — an inventory
entry at that path leaves the computed plan (pending set and skipped
set) unchanged. -/
theorem exclusion_symmetry_C6 (ex : List String) (P : String) (tree : FsForest)
    (e : FileEntry) (hP : P ∈ ex) (hm : matchesExclude e.relPath P = true) :
    e ∉ walkBasic ex tree ∧ e ∉ walkOpt ex tree ∧
    e ∉ archiveBasic ex tree ∧ e ∉ archiveOpt ex tree ∧
    (∀ raw : List (String × String),
        lookupMd5 (remoteInventoryOpt ex (some raw)) e.relPath = none) ∧
    (∀ (raw : List (String × String)) (d : String),
        pendingFiles ((e.relPath, d) :: raw) (walkBasic ex tree) =
          pendingFiles raw (walkBasic ex tree) ∧
        skippedFiles ((e.relPath, d) :: raw) (walkBasic ex tree) =
          skippedFiles raw (walkBasic ex tree)) := by
  have hexc : isExcluded ex e.relPath = true :=
    List.any_eq_true.mpr ⟨P, hP, hm⟩
  have hplan : ∀ (x : FileEntry), x ∈ walkBasic ex tree → x.relPath ≠ e.relPath := by
    intro x hx hcontra
    have := walkBasic_not_excluded ex tree x hx
    rw [hcontra, hexc] at this
    simp at this
  refine ⟨?_, ?_, ?_, ?_, ?_, ?_⟩
  · intro contra
    have := walkBasic_not_excluded ex tree e contra
    rw [hexc] at this
    simp at this
  · intro contra
    have := walkOpt_not_excluded ex tree e contra
    rw [hexc] at this
    simp at this
  · intro contra
    have := archiveBasic_not_excluded ex tree e contra
    rw [hexc] at this
    simp at this
  · intro contra
    have := archiveOpt_not_excluded ex tree e contra
    rw [hexc] at this
    simp at this
  · exact fun raw => lookupMd5_remoteInventoryOpt_excluded ex e.relPath hexc raw
  · intro raw d
    constructor
    · refine List.filter_congr ?_
      intro x hx
      rw [needUpload_cons_of_ne e.relPath x.relPath (hplan x hx).symm.symm.symm d raw]
    · refine List.filter_congr ?_
      intro x hx
      rw [needUpload_cons_of_ne e.relPath x.relPath ?_ d raw]
      exact fun hc => hplan x hx hc.symm

/-- Concrete excluded entry used to instantiate the exclusion
symmetry theorem. -/
def treeC6 : FsForest :=
  FsForest.ofList
    [FsTree.file "keep" (some "k"),
     FsTree.dir "node_modules" (FsForest.ofList [FsTree.file "x" (some "d")])]

theorem exclusion_symmetry_C6_witness :
    ("node_modules" ∈ (["node_modules"] : List String)) ∧
    matchesExclude (FileEntry.relPath ⟨["node_modules", "x"], some "d"⟩)
      "node_modules" = true ∧
    (⟨["node_modules", "x"], some "d"⟩ : FileEntry) ∉
      walkBasic ["node_modules"] treeC6 ∧
    (⟨["node_modules", "x"], some "d"⟩ : FileEntry) ∉
      archiveOpt ["node_modules"] treeC6 ∧
    lookupMd5 (remoteInventoryOpt ["node_modules"] (some [("node_modules/x", "d")]))
      (FileEntry.relPath ⟨["node_modules", "x"], some "d"⟩) = none := by
  have h := exclusion_symmetry_C6 ["node_modules"] "node_modules" treeC6
    ⟨["node_modules", "x"], some "d"⟩ (by decide) (by decide)
  exact ⟨by decide, by decide, h.1, h.2.2.2.1, h.2.2.2.2.1 [("node_modules/x", "d")]⟩

/-! ## Claim C7: dot-name filtering in the scans -/

/-- C7 counterexample: the basic script's reconciliation scan has no
per-file dot-name check, so a file named `.hidden` directly under the
root is retained as a scanned entry — the claim that no produced
entry has a path component starting with a dot fails on the basic
script. -/
theorem dot_file_scan_C7_counterexample :
    walkBasic [] (FsForest.cons (FsTree.file ".hidden" (some "d")) FsForest.nil) =
      [⟨[".hidden"], some "d"⟩] ∧
    pyStartsWith ".hidden" "." = true := by decide

/-- C7 (amended): dot-named directories are pruned by every walk of
both scripts, and the optimized script's scan and both scripts'
archive walks also skip dot-named files, so none of their entries has
any component starting with a dot; the basic script's reconciliation
scan, however, checks only directories, so only the directory
components (all but the last) of its entries are dot-free. -/
theorem dot_pruning_C7 (ex : List String) (tree : FsForest) (e : FileEntry) :
    (e ∈ walkOpt ex tree → ∀ c ∈ e.comps, pyStartsWith c "." = false) ∧
    (e ∈ archiveOpt ex tree → ∀ c ∈ e.comps, pyStartsWith c "." = false) ∧
    (e ∈ archiveBasic ex tree → ∀ c ∈ e.comps, pyStartsWith c "." = false) ∧
    (e ∈ walkBasic ex tree → ∀ c ∈ e.comps.dropLast, pyStartsWith c "." = false) := by
  refine ⟨?_, ?_, ?_, ?_⟩
  · intro he
    obtain ⟨ds, n, hc, hok, hkf⟩ := walkGen_mem_split _ _ [] tree e he
    have hds : ∀ d ∈ ds, (!pyStartsWith d ".") = true :=
      DirsOk_forall _ (fun d => !pyStartsWith d ".") (fun _ _ h => h) ds [] hok
    rw [Bool.and_eq_true] at hkf
    intro c hc2
    rw [hc] at hc2
    simp only [List.nil_append, List.mem_append, List.mem_singleton] at hc2
    rcases hc2 with h | rfl
    · simpa using hds c h
    · simpa using hkf.1
  · intro he
    obtain ⟨ds, n, hc, hok, hkf⟩ := walkGen_mem_split _ _ [] tree e he
    have hds : ∀ d ∈ ds, (!pyStartsWith d ".") = true := by
      refine DirsOk_forall _ (fun d => !pyStartsWith d ".") ?_ ds [] hok
      intro p d h
      rw [Bool.and_eq_true] at h
      exact h.1
    rw [Bool.and_eq_true] at hkf
    intro c hc2
    rw [hc] at hc2
    simp only [List.nil_append, List.mem_append, List.mem_singleton] at hc2
    rcases hc2 with h | rfl
    · simpa using hds c h
    · simpa using hkf.1
  · intro he
    obtain ⟨ds, n, hc, _, hkf⟩ := walkGen_mem_split _ _ [] tree e he
    rw [Bool.and_eq_true] at hkf
    have hany : ((ds ++ [n]).any (fun c => pyStartsWith c ".")) = false := by
      simpa using hkf.1
    intro c hc2
    rw [hc] at hc2
    simp only [List.nil_append] at hc2
    have := List.any_eq_false.mp hany c hc2
    simpa using this
  · intro he
    obtain ⟨ds, n, hc, hok, _⟩ := walkGen_mem_split _ _ [] tree e he
    have hds : ∀ d ∈ ds, (!pyStartsWith d ".") = true :=
      DirsOk_forall _ (fun d => !pyStartsWith d ".") (fun _ _ h => h) ds [] hok
    intro c hc2
    rw [hc] at hc2
    simp only [List.nil_append, List.dropLast_concat] at hc2
    simpa using hds c hc2

theorem dot_pruning_C7_witness :
    ((⟨["a"], some "d"⟩ : FileEntry) ∈
        walkOpt [] (FsForest.cons (FsTree.file "a" (some "d")) FsForest.nil)) ∧
    (∀ c ∈ (⟨["a"], some "d"⟩ : FileEntry).comps, pyStartsWith c "." = false) ∧
    (∀ c ∈ (⟨["a"], some "d"⟩ : FileEntry).comps.dropLast,
      pyStartsWith c "." = false) := by
  have h := dot_pruning_C7 []
    (FsForest.cons (FsTree.file "a" (some "d")) FsForest.nil) ⟨["a"], some "d"⟩
  exact ⟨by decide, h.1 (by decide), h.2.2.2 (by decide)⟩

/-! ## Claims C2 and C3: the live-watch per-path machines -/

/-- Reachability invariant of the optimized per-path machine: at most
one upload of the path is in flight, and no debounce timer is armed
while one is. -/
def OptInv (s : OptPathState) : Prop :=
  s.inflight ≤ 1 ∧ (0 < s.inflight → s.timer = false)

/-- Every enabled step preserves the invariant. -/
theorem optStep_inv (s s2 : OptPathState) (e : WatchEvent)
    (hs : OptInv s) (h : optStep s e = some s2) : OptInv s2 := by
  obtain ⟨h1, h2⟩ := hs
  cases e with
  | change =>
      simp only [optStep, Option.some.injEq] at h
      subst h
      by_cases hpos : s.inflight > 0
      · rw [optStepChange, if_pos hpos]
        exact ⟨h1, fun _ => rfl⟩
      · rw [optStepChange, if_neg hpos]
        exact ⟨h1, fun hp => absurd hp hpos⟩
  | timerFire =>
      by_cases ht : s.timer
      · rw [optStep, if_pos ht, Option.some.injEq] at h
        subst h
        by_cases hpos : s.inflight > 0
        · rw [optStepTimerFire, if_pos hpos]
          exact ⟨h1, fun _ => rfl⟩
        · rw [optStepTimerFire, if_neg hpos]
          exact ⟨le_refl 1, fun _ => rfl⟩
      · rw [optStep, if_neg ht] at h
        exact absurd h (by simp)
  | complete =>
      by_cases hpos : s.inflight > 0
      · rw [optStep, if_pos hpos, Option.some.injEq] at h
        subst h
        have h0 : s.inflight - 1 = 0 := by omega
        by_cases hp : s.pending
        · rw [optStepComplete, if_pos hp]
          exact ⟨by simp [h0], by simp [h0]⟩
        · rw [optStepComplete, if_neg hp]
          exact ⟨by simp [h0], by simp [h0]⟩
      · rw [optStep, if_neg hpos] at h
        exact absurd h (by simp)

/-- Runs from an invariant state end in an invariant state. -/
theorem optRunFrom_inv :
    ∀ (evs : List WatchEvent) (s s2 : OptPathState), OptInv s →
      optRunFrom s evs = some s2 → OptInv s2 := by
  intro evs
  induction evs with
  | nil =>
      intro s s2 hs h
      simp only [optRunFrom, Option.some.injEq] at h
      exact h ▸ hs
  | cons e es ih =>
      intro s s2 hs h
      rw [optRunFrom] at h
      cases hstep : optStep s e with
      | none => rw [hstep] at h; exact absurd h (by simp)
      | some s1 =>
          rw [hstep] at h
          exact ih s1 s2 (optStep_inv s s1 e hs hstep) h

/-- Every state reachable from the initial state satisfies the
invariant. -/
theorem optRun_inv (evs : List WatchEvent) (s : OptPathState)
    (h : optRun evs = some s) : OptInv s :=
  optRunFrom_inv evs optInit s ⟨by simp [optInit], by simp [optInit]⟩ h

/-- C2 counterexample: in the basic script's handler, a change event
for a path whose tracked upload is already running calls
`old_future.cancel()` — which cannot stop a running task — and then
submits a new task anyway; once the pool starts it, two uploads of the
same path run concurrently.  The trace is: change (submit), pool
starts the task, change during the running upload (failed cancel +
resubmit), pool starts the new task. -/
theorem serialization_basic_C2_counterexample :
    basicRun [BasicEvent.change, BasicEvent.start, BasicEvent.change,
        BasicEvent.start] =
      some ⟨some TaskStatus.running, 1⟩ ∧
    BasicPathState.runningUploads ⟨some TaskStatus.running, 1⟩ = 2 := by
  decide

/-- C2 (amended): in the optimized script's handler — taking each
watcher callback, timer callback and upload-completion handler as one
atomic transition — at most one upload of a given relative path is in
flight in every reachable state, for every interleaving of change
events, timer fires and completions.  (The basic script violates the
claim as stated; and the optimized script's per-file lock table
`file_locks` is created but never used, so atomicity of each
transition is an assumption of this model, not enforced by the
code.) -/
theorem serialization_opt_C2 (evs : List WatchEvent) (s : OptPathState)
    (h : optRun evs = some s) : s.inflight ≤ 1 :=
  (optRun_inv evs s h).1

theorem serialization_opt_C2_witness :
    optRun [WatchEvent.change, WatchEvent.timerFire] = some ⟨false, 1, false⟩ ∧
    (⟨false, 1, false⟩ : OptPathState).inflight ≤ 1 :=
  ⟨by decide,
    serialization_opt_C2 [WatchEvent.change, WatchEvent.timerFire]
      ⟨false, 1, false⟩ (by decide)⟩

/-- C3 counterexample: in the basic script's handler there is no
retrigger flag at all — a change event arriving while the path's
upload is running immediately submits a fresh upload task (the state
tracks a newly queued task while the replaced upload is still
running), instead of recording a flag and starting a new cycle only
when the in-flight upload completes. -/
theorem retrigger_basic_C3_counterexample :
    basicRun [BasicEvent.change, BasicEvent.start, BasicEvent.change] =
      some ⟨some TaskStatus.queued, 1⟩ ∧
    BasicPathState.runningUploads ⟨some TaskStatus.queued, 1⟩ = 1 := by
  decide

/-- C3 (amended): in the optimized script's handler (atomic
transitions as in the serialization theorem), from any reachable state
with an upload in flight: a change event does not cancel the in-flight
upload (the in-flight count is unchanged) and records the retrigger
flag; completion is enabled; and on completion with the flag set the
flag is cleared and a fresh debounce cycle is started, while without
the flag the path returns to the idle state. -/
theorem retrigger_opt_C3 (evs : List WatchEvent) (s : OptPathState)
    (h : optRun evs = some s) (h1 : 0 < s.inflight) :
    (optStepChange s).inflight = s.inflight ∧
    (optStepChange s).pending = true ∧
    optStep s WatchEvent.complete = some (optStepComplete s) ∧
    (s.pending = true → optStepComplete s = ⟨true, 0, false⟩) ∧
    (s.pending = false → optStepComplete s = ⟨false, 0, false⟩) := by
  obtain ⟨hle, htimer⟩ := optRun_inv evs s h
  have hfl : s.inflight = 1 := by omega
  refine ⟨?_, ?_, ?_, ?_, ?_⟩
  · rw [optStepChange, if_pos h1]
  · rw [optStepChange, if_pos h1]
  · rw [optStep, if_pos h1]
  · intro hp
    rw [optStepComplete, if_pos hp, hfl]
  · intro hp
    rw [optStepComplete, if_neg (by simp [hp]), hfl, htimer h1, hp]

theorem retrigger_opt_C3_witness :
    optRun [WatchEvent.change, WatchEvent.timerFire] = some ⟨false, 1, false⟩ ∧
    0 < (⟨false, 1, false⟩ : OptPathState).inflight ∧
    (optStepChange ⟨false, 1, false⟩).pending = true ∧
    optStepComplete ⟨false, 1, false⟩ = ⟨false, 0, false⟩ := by
  have h := retrigger_opt_C3 [WatchEvent.change, WatchEvent.timerFire]
    ⟨false, 1, false⟩ (by decide) (by decide)
  exact ⟨by decide, by decide, h.2.1, h.2.2.2.2 rfl⟩

/-! ## Claim C8: digest-failure handling -/

/-- C8: the fingerprinter returns a distinguishable unavailable result
(`none`) for an unreadable file instead of raising, and every scanned
retained file whose local digest is unavailable needs upload against
any remote inventory: it is in the pending set, and never in the
skipped set. -/
theorem digest_failure_C8 (md5hex : List Nat → String)
    (remote : List (String × String)) (locals : List FileEntry) (e : FileEntry)
    (he : e ∈ locals) (hnone : e.md5 = none) :
    calculate_file_md5 md5hex none = none ∧
    needUpload remote e.relPath e.md5 = true ∧
    e ∈ pendingFiles remote locals ∧
    e ∉ skippedFiles remote locals := by
  have hneed : needUpload remote e.relPath e.md5 = true := by
    rw [hnone, needUpload]
    cases lookupMd5 remote e.relPath <;> simp
  refine ⟨rfl, hneed, List.mem_filter.mpr ⟨he, hneed⟩, ?_⟩
  intro contra
  have h2 := (List.mem_filter.mp contra).2
  rw [hneed] at h2
  simp at h2

theorem digest_failure_C8_witness :
    ((⟨["x"], none⟩ : FileEntry) ∈ [(⟨["x"], none⟩ : FileEntry)]) ∧
    (⟨["x"], none⟩ : FileEntry).md5 = none ∧
    (⟨["x"], none⟩ : FileEntry) ∈ pendingFiles [("x", "d")] [⟨["x"], none⟩] ∧
    (⟨["x"], none⟩ : FileEntry) ∉ skippedFiles [("x", "d")] [⟨["x"], none⟩] := by
  have h := digest_failure_C8 (fun _ => "") [("x", "d")] [⟨["x"], none⟩]
    ⟨["x"], none⟩ (by decide) rfl
  exact ⟨by decide, rfl, h.2.2.1, h.2.2.2⟩

/-! ## Claim C9: retry bound and reporting -/

/-- A successful retry loop run succeeded at an attempt inside its
fuel window, after failures at every earlier attempt of the window. -/
theorem retryFrom_success (ok : Nat → Bool) :
    ∀ (fuel start r : Nat), retryFrom ok fuel start = UploadReport.success r →
      start ≤ r ∧ r < start + fuel ∧ ok r = true ∧
        ∀ i, start ≤ i → i < r → ok i = false := by
  intro fuel
  induction fuel with
  | zero => intro start r h; exact absurd h (by simp [retryFrom])
  | succ fuel ih =>
      intro start r h
      rw [retryFrom] at h
      cases hok : ok start with
      | true =>
          simp only [hok, if_true, UploadReport.success.injEq] at h
          subst h
          exact ⟨le_refl _, by omega, hok, fun i hi1 hi2 => absurd hi1 (by omega)⟩
      | false =>
          simp only [hok, Bool.false_eq_true, if_false] at h
          obtain ⟨h1, h2, h3, h4⟩ := ih (start + 1) r h
          refine ⟨by omega, by omega, h3, ?_⟩
          intro i hi1 hi2
          by_cases hieq : i = start
          · subst hieq
            exact hok
          · exact h4 i (by omega) hi2

/-- A failed retry loop run exhausted its whole fuel window, every
attempt of which failed. -/
theorem retryFrom_failure (ok : Nat → Bool) :
    ∀ (fuel start n : Nat), retryFrom ok fuel start = UploadReport.failure n →
      n = start + fuel ∧ ∀ i, start ≤ i → i < n → ok i = false := by
  intro fuel
  induction fuel with
  | zero =>
      intro start n h
      simp only [retryFrom, UploadReport.failure.injEq] at h
      exact ⟨by omega, fun i hi1 hi2 => absurd hi1 (by omega)⟩
  | succ fuel ih =>
      intro start n h
      rw [retryFrom] at h
      cases hok : ok start with
      | true => simp [hok] at h
      | false =>
          simp only [hok, Bool.false_eq_true, if_false] at h
          obtain ⟨h1, h2⟩ := ih (start + 1) n h
          refine ⟨by omega, ?_⟩
          intro i hi1 hi2
          by_cases hieq : i = start
          · subst hieq
            exact hok
          · exact h2 i (by omega) hi2

/-- C9: a single-file upload makes at most 3 attempts: a success
report at attempt `r` means `r ≤ 2` (so at most 3 attempts), that
attempt's copy succeeded and every earlier one failed — in particular
failures at attempts 0 and 1 followed by a success at attempt 2 are
reported as a success with 2 prior retries, not as a failure; a
failure report means exactly 3 attempts all failed, and the loop
returns the report instead of raising. -/
theorem retry_bound_C9 (ok : Nat → Bool) :
    (∀ r, upload_single_file ok = UploadReport.success r →
      r ≤ 2 ∧ ok r = true ∧ ∀ i, i < r → ok i = false) ∧
    (∀ n, upload_single_file ok = UploadReport.failure n →
      n = 3 ∧ ∀ i, i < 3 → ok i = false) ∧
    (ok 0 = false → ok 1 = false → ok 2 = true →
      upload_single_file ok = UploadReport.success 2) ∧
    (ok 0 = false → ok 1 = false → ok 2 = false →
      upload_single_file ok = UploadReport.failure 3) := by
  refine ⟨?_, ?_, ?_, ?_⟩
  · intro r hr
    obtain ⟨_, hlt, hok, hprev⟩ := retryFrom_success ok 3 0 r hr
    exact ⟨by omega, hok, fun i hi => hprev i (by omega) hi⟩
  · intro n hn
    obtain ⟨hn3, hprev⟩ := retryFrom_failure ok 3 0 n hn
    constructor
    · omega
    · intro i hi
      exact hprev i (by omega) (by omega)
  · intro h0 h1 h2
    simp [upload_single_file, retryFrom, h0, h1, h2]
  · intro h0 h1 h2
    simp [upload_single_file, retryFrom, h0, h1, h2]

theorem retry_bound_C9_witness :
    (fun i => i == 2) 0 = false ∧ (fun i => i == 2) 1 = false ∧
    (fun i => i == 2) 2 = true ∧
    upload_single_file (fun i => i == 2) = UploadReport.success 2 := by
  have h := (retry_bound_C9 (fun i => i == 2)).2.2.1 (by decide) (by decide)
    (by decide)
  exact ⟨by decide, by decide, by decide, h⟩

/-! ## Claim C10: the configured compress_threshold has no effect -/

/-- C10: the optimized script's non-forced sync behaves identically
for any two stored configurations that differ only in
`compress_threshold`: the strategy decision compares the pending count
against the literal 100, and `upload_initial_files` never receives the
threshold.  `load_config` defaults an absent threshold to 50, and
`init_config` writes 50 into new configuration files. -/
theorem compress_threshold_unused_C10 (s1 s2 : OptStored) (tree : FsForest)
    (fetch : Option (List (String × String))) (bo : BulkOutcome)
    (hex : s1.exclude_paths = s2.exclude_paths)
    (hw : s1.max_workers = s2.max_workers)
    (hd : s1.debug = s2.debug) :
    syncNonForced (load_config s1) tree fetch bo =
      syncNonForced (load_config s2) tree fetch bo ∧
    (load_config
        ⟨none, s1.exclude_paths, s1.max_workers, s1.debug⟩).compress_threshold =
      50 ∧
    initConfigCompressThreshold = 50 := by
  refine ⟨?_, rfl, rfl⟩
  simp [syncNonForced, load_config, hex]

theorem compress_threshold_unused_C10_witness :
    (⟨some 7, [], 10, false⟩ : OptStored).exclude_paths =
      (⟨some 999, [], 10, false⟩ : OptStored).exclude_paths ∧
    syncNonForced (load_config ⟨some 7, [], 10, false⟩) FsForest.nil none
        ⟨true, true, true⟩ =
      syncNonForced (load_config ⟨some 999, [], 10, false⟩) FsForest.nil none
        ⟨true, true, true⟩ := by
  have h := compress_threshold_unused_C10 ⟨some 7, [], 10, false⟩
    ⟨some 999, [], 10, false⟩ FsForest.nil none ⟨true, true, true⟩ rfl rfl rfl
  exact ⟨rfl, h.1⟩

end Sync2Pod
